import Mathlib

/-!
Verification of the ravetools lyricspider subsystem.

This file gives a shallow embedding of the relevant parts of
src/ravetools/genius.py and src/ravetools/lyricspider.py and proves (or
refutes) the specification claims about them.

Conventions of the embedding:
 - Pure Python functions become Lean functions on the same data.
 - External collaborators (the requests HTTP layer, BeautifulSoup pages,
   the SQLite engine) are modelled at their boundary: HTTP fetches become
   explicit function parameters, pages become lists of elements, and the
   SQLite lyrics table together with its FTS triggers (DB.MIGRATIONS 1-3)
   becomes an explicit state type with one transition per SQL statement.
 - Python None / implicit fall-through returns are modelled with Option;
   Python exceptions are modelled with Except.
-/

/-! ## Embedding of genius.py -/

/-- Whitespace characters recognised by Python str.strip and by the regex
class backslash-s, restricted to ASCII (all inputs in this development are
ASCII). -/
def isPySpace (c : Char) : Bool :=
  c == ' ' || c == '\t' || c == '\n' || c == '\r' || c == Char.ofNat 11 || c == Char.ofNat 12

/-- Embedding of the translate call in _str_normalize: remove the right
single quote U+2019 and the zero width space U+200B. -/
def pyTranslate (x : String) : String :=
  ⟨x.data.filter (fun c => c != Char.ofNat 0x2019 && c != Char.ofNat 0x200b)⟩

/-- Strip leading and trailing whitespace from a character list, as Python
str.strip does. -/
def pyStripList (l : List Char) : List Char :=
  ((l.dropWhile isPySpace).reverse.dropWhile isPySpace).reverse

/-- Embedding of Python str.strip with no arguments. -/
def pyStrip (x : String) : String := ⟨pyStripList x.data⟩

/-- Embedding of Python str.lower restricted to ASCII (identity on
non-ASCII characters, which matches Python on every character appearing in
this development). -/
def pyLower (x : String) : String := ⟨x.data.map Char.toLower⟩

/-- Embedding of _str_normalize from genius.py. The call to
unicodedata.normalize with form NFKC is external library behaviour, so it
is passed in as the parameter nfkc; on the ASCII strings of the concrete
claims it is the identity, which the witnesses instantiate. -/
def str_normalize (nfkc : String → String) (x : String) : String :=
  nfkc (pyLower (pyStrip (pyTranslate x)))

/-- Embedding of Genius._title_matches. -/
def title_matches (nfkc : String → String) (us other : String) : Bool :=
  str_normalize nfkc us == str_normalize nfkc other

/-- Embedding of one song hit as consumed by Genius.search_song: the fields
of the result object the code reads. The instrumental field is an Option
because the code reads it with dict.get, which yields Python None when the
key is absent. -/
structure Song where
  title : String
  lyrics_state : String
  instrumental : Option Bool
  url : String
deriving DecidableEq

/-- Python truthiness of an optional boolean: None and False are falsy. -/
def truthyOptBool : Option Bool → Bool
  | none => false
  | some b => b

/-- Match a literal character list at the head of the input, returning the
remaining input on success. -/
def charsMatchLit : List Char → List Char → Option (List Char)
  | [], cs => some cs
  | _ :: _, [] => none
  | p :: ps, c :: cs => if p = c then charsMatchLit ps cs else none

/-- Match the regex pattern for track lists at the current position: the
literal track, an optional whitespace character, then the literal list. -/
def matchTrackListAt (cs : List Char) : Bool :=
  match charsMatchLit "track".data cs with
  | none => false
  | some rest =>
    (charsMatchLit "list".data rest).isSome ||
      (match rest with
       | [] => false
       | c :: rest2 => isPySpace c && (charsMatchLit "list".data rest2).isSome)

/-- Match a plain literal pattern at the current position. -/
def litAt (lit : String) (cs : List Char) : Bool :=
  (charsMatchLit lit.data cs).isSome

/-- Match any of the title_skip_patterns of Genius.\_\_init\_\_ at the
current position. The pattern for album artwork is matched by its
mandatory part only, because its final group is optional; every other
pattern is a literal. The patterns are exactly as written in the source:
all lowercase, and the regex is compiled without the IGNORECASE flag. -/
def skipMatchAt (cs : List Char) : Bool :=
  matchTrackListAt cs || litAt "album art" cs || litAt "liner notes" cs ||
    litAt "booklet" cs || litAt "credits" cs || litAt "interview" cs ||
    litAt "skit" cs || litAt "instrumental" cs || litAt "setlist" cs

/-- Search for a match of the skip regex at any position, as re.search
does. -/
def skipSearchAux : List Char → Bool
  | [] => skipMatchAt []
  | c :: cs => skipMatchAt (c :: cs) || skipSearchAux cs

/-- Embedding of the search call on the compiled _title_skip_re regex. -/
def titleSkipSearch (s : String) : Bool := skipSearchAux s.data

/-- Embedding of Genius._has_lyrics. The Python function returns False in
its two guard branches and then falls off the end, implicitly returning
None; the result type Option Bool records exactly that. -/
def has_lyrics (song : Song) : Option Bool :=
  if song.lyrics_state != "complete" || truthyOptBool song.instrumental then
    some false
  else if titleSkipSearch song.title then some false
  else none

/-- Embedding of the first loop of Genius.search_song: return the first
hit whose title matches the query title exactly after normalization. -/
def exactMatchPass (nfkc : String → String) (title : String) : List Song → Option Song
  | [] => none
  | s :: rest =>
    if title_matches nfkc s.title title then some s
    else exactMatchPass nfkc title rest

/-- Embedding of the second loop of Genius.search_song: return the first
hit on which _has_lyrics is truthy. -/
def fallbackPass : List Song → Option Song
  | [] => none
  | s :: rest =>
    if truthyOptBool (has_lyrics s) then some s else fallbackPass rest

/-- Embedding of Genius.search_song on an already-fetched hit list (the
HTTP search request is external; the code consumes the hits of the first
section of the response). -/
def search_song (nfkc : String → String) (title : String) (hits : List Song) : Option Song :=
  match exactMatchPass nfkc title hits with
  | some s => some s
  | none =>
    match fallbackPass hits with
    | some s => some s
    | none => none

/-! ## Basic lemmas about the resolver -/

/-- The truthiness test applied to _has_lyrics never succeeds: the Python
function returns False or None on every input, never True. -/
lemma has_lyrics_not_truthy (song : Song) : truthyOptBool (has_lyrics song) = false := by
  unfold has_lyrics
  split
  · rfl
  · split <;> rfl

/-- The fallback loop of search_song never selects a hit. -/
lemma fallbackPass_eq_none (hits : List Song) : fallbackPass hits = none := by
  induction hits with
  | nil => rfl
  | cons s rest ih => simp [fallbackPass, has_lyrics_not_truthy, ih]

/-- search_song reduces to its exact-match loop. -/
lemma search_song_eq_exact (nfkc : String → String) (title : String) (hits : List Song) :
    search_song nfkc title hits = exactMatchPass nfkc title hits := by
  unfold search_song
  cases h : exactMatchPass nfkc title hits <;> simp [fallbackPass_eq_none]

/-- A hit returned by the exact-match loop is one of the hits and its
normalized title equals the normalized query title. -/
lemma exactMatchPass_sound (nfkc : String → String) (title : String) (hits : List Song)
    (s : Song) (h : exactMatchPass nfkc title hits = some s) :
    s ∈ hits ∧ str_normalize nfkc s.title = str_normalize nfkc title := by
  induction hits with
  | nil => simp [exactMatchPass] at h
  | cons t rest ih =>
    by_cases ht : title_matches nfkc t.title title
    · simp only [exactMatchPass, ht, if_pos] at h
      cases h
      exact ⟨List.mem_cons_self _ _, eq_of_beq ht⟩
    · simp only [exactMatchPass, ht, if_neg, Bool.false_eq_true, if_false] at h
      obtain ⟨hmem, hnorm⟩ := ih h
      exact ⟨List.mem_cons_of_mem _ hmem, hnorm⟩

/-- The first match of an exact-match scan over a list split around the
first matching hit. -/
lemma exactMatchPass_append (nfkc : String → String) (title : String)
    (pre post : List Song) (s : Song)
    (hpre : ∀ t ∈ pre, title_matches nfkc t.title title = false)
    (hs : title_matches nfkc s.title title = true) :
    exactMatchPass nfkc title (pre ++ s :: post) = some s := by
  induction pre with
  | nil => simp [exactMatchPass, hs]
  | cons t rest ih =>
    have ht := hpre t (List.mem_cons_self t rest)
    simp only [List.cons_append, exactMatchPass, ht, Bool.false_eq_true, if_false]
    exact ih (fun t' ht' => hpre t' (List.mem_cons_of_mem _ ht'))

/-- C3 counterexample: on the claim's hit list the fallback pass selects
nothing at all (in particular it does not select the second hit); the
second hit is instead found by the exact-match pass, whose normalization
is the identity on these ASCII titles. -/
theorem C3_counterexample :
    fallbackPass [⟨"Song (Remix)", "incomplete", none, ""⟩, ⟨"Song", "complete", none, ""⟩] =
      none ∧
    exactMatchPass (fun s => s) "Song"
        [⟨"Song (Remix)", "incomplete", none, ""⟩, ⟨"Song", "complete", none, ""⟩] =
      some ⟨"Song", "complete", none, ""⟩ :=
  ⟨rfl, rfl⟩

/-- C3 (amended): on the hit list with titles Song (Remix), incomplete,
and Song, complete, and query title Song, the resolver returns the second
hit, but via the exact-match pass (its normalized title equals the
normalized query title); the fallback pass selects no hit. Stated for any
Unicode normalization function fixing the two ASCII normalized titles, as
NFKC does. -/
theorem C3_amended (nfkc : String → String)
    (h1 : nfkc "song (remix)" = "song (remix)") (h2 : nfkc "song" = "song") :
    search_song nfkc "Song"
        [⟨"Song (Remix)", "incomplete", none, ""⟩, ⟨"Song", "complete", none, ""⟩] =
      some ⟨"Song", "complete", none, ""⟩ ∧
    fallbackPass [⟨"Song (Remix)", "incomplete", none, ""⟩, ⟨"Song", "complete", none, ""⟩] =
      none := by
  have e1 : str_normalize nfkc "Song (Remix)" = "song (remix)" := by
    show nfkc (pyLower (pyStrip (pyTranslate "Song (Remix)"))) = "song (remix)"
    rw [show pyLower (pyStrip (pyTranslate "Song (Remix)")) = "song (remix)" from rfl, h1]
  have e2 : str_normalize nfkc "Song" = "song" := by
    show nfkc (pyLower (pyStrip (pyTranslate "Song"))) = "song"
    rw [show pyLower (pyStrip (pyTranslate "Song")) = "song" from rfl, h2]
  have t1 : title_matches nfkc "Song (Remix)" "Song" = false := by
    unfold title_matches; rw [e1, e2]; rfl
  have t2 : title_matches nfkc "Song" "Song" = true := by
    unfold title_matches; rw [e2]; rfl
  refine ⟨?_, fallbackPass_eq_none _⟩
  rw [search_song_eq_exact]
  simp [exactMatchPass, t1, t2]

/-- C3 witness: the amended claim at the NFKC-is-identity instance. -/
theorem C3_amended_witness :
    search_song (fun s => s) "Song"
        [⟨"Song (Remix)", "incomplete", none, ""⟩, ⟨"Song", "complete", none, ""⟩] =
      some ⟨"Song", "complete", none, ""⟩ ∧
    fallbackPass [⟨"Song (Remix)", "incomplete", none, ""⟩, ⟨"Song", "complete", none, ""⟩] =
      none :=
  C3_amended (fun s => s) rfl rfl

/-- C4: for every search response, search_song returns either a hit of the
response whose normalized title equals the normalized query title or none,
because the truthiness test on _has_lyrics fails on every possible input
(the Python function returns False or None, never True), so the fallback
pass never selects any hit. -/
theorem C4_fallback_never_selects (nfkc : String → String) (title : String)
    (hits : List Song) :
    (∀ song : Song, truthyOptBool (has_lyrics song) = false) ∧
    (search_song nfkc title hits = none ∨
      ∃ s, s ∈ hits ∧ search_song nfkc title hits = some s ∧
        str_normalize nfkc s.title = str_normalize nfkc title) := by
  refine ⟨has_lyrics_not_truthy, ?_⟩
  rw [search_song_eq_exact]
  match h : exactMatchPass nfkc title hits with
  | none => exact Or.inl rfl
  | some s =>
    obtain ⟨hm, hn⟩ := exactMatchPass_sound nfkc title hits s h
    exact Or.inr ⟨s, hm, rfl, hn⟩

/-- C5: the resolver returns the first hit whose normalized title equals
the normalized query title, whatever that hit's lyrics_state and
instrumental flag are (the exact-match pass never reads them); stated for
the hit in an arbitrary position with arbitrary fields, after any prefix
of non-matching hits. -/
theorem C5_exact_match_precedence (nfkc : String → String) (title : String)
    (pre post : List Song) (s : Song)
    (hpre : ∀ t ∈ pre, title_matches nfkc t.title title = false)
    (hs : title_matches nfkc s.title title = true) :
    search_song nfkc title (pre ++ s :: post) = some s := by
  rw [search_song_eq_exact]
  exact exactMatchPass_append nfkc title pre post s hpre hs

/-- C5 witness: the spec's concrete example. With hits titled song,
incomplete, and Song (Live), complete, and query title Song, lowercasing
makes the first hit an exact match, so it is returned despite its
incomplete lyrics state. -/
theorem C5_witness :
    search_song (fun s => s) "Song"
        [⟨"song", "incomplete", none, ""⟩, ⟨"Song (Live)", "complete", none, ""⟩] =
      some ⟨"song", "incomplete", none, ""⟩ :=
  C5_exact_match_precedence (fun s => s) "Song" []
    [⟨"Song (Live)", "complete", none, ""⟩] ⟨"song", "incomplete", none, ""⟩
    (by intro t ht; cases ht) rfl

/-- C6 counterexample: the denylist regex of Genius is case-sensitive, not
case-insensitive: it is compiled from all-lowercase patterns without the
IGNORECASE flag, so it does not match the title Tracklist although it
matches the title tracklist, which differs only in case. -/
theorem C6_counterexample :
    titleSkipSearch "Tracklist" = false ∧ titleSkipSearch "tracklist" = true :=
  ⟨rfl, rfl⟩

/-- C6 (amended): the denylist match is case-sensitive, so a hit titled
Tracklist does not match the denylist; that hit (like every other hit) is
nevertheless never returned by the fallback pass, because the truthiness
test on _has_lyrics fails on every input, so the fallback pass selects no
hit at all. -/
theorem C6_amended :
    titleSkipSearch "Tracklist" = false ∧
    (∀ hits : List Song, fallbackPass hits = none) ∧
    fallbackPass [⟨"Tracklist", "complete", none, ""⟩] = none :=
  ⟨rfl, fallbackPass_eq_none, fallbackPass_eq_none _⟩

/-! ## Embedding of lyricspider.py: pipeline data and workers -/

/-- Embedding of the SpotifyTrackDetails dataclass. -/
structure SpotifyTrackDetails where
  tid : Nat
  title : String
  artists : String
deriving DecidableEq

/-- Embedding of the SearchResult dataclass; genius_result is the value
returned by Genius.search_song, which may be Python None. -/
structure SearchResult where
  track : SpotifyTrackDetails
  genius_result : Option Song
deriving DecidableEq

/-- Embedding of the LyricsResult dataclass; lyrics is the value returned
by get_lyrics, which may be Python None. -/
structure LyricsResult where
  track : SpotifyTrackDetails
  genius_result : Option Song
  lyrics : Option String
deriving DecidableEq

/-- One element of a fetched lyrics page, as seen through the find_all
call in get_lyrics: whether it carries the data-lyrics-container marker
attribute, and its visible text as produced by get_text with a newline
separator. The elements of the list are in document order. -/
structure PageElement where
  isLyricsContainer : Bool
  text : String
deriving DecidableEq

/-- Embedding of get_lyrics from lyricspider.py. The page fetch through
the requests session and the BeautifulSoup parse are external, so the
fetched, parsed page is the function parameter fetchPage, keyed by URL.
If the search stage produced no result, extraction is skipped (the fetch
is never consulted); otherwise the text of the elements carrying the
lyrics-container attribute is joined with newlines, and the result is
none when there are no such elements. -/
def get_lyrics (fetchPage : String → List PageElement) (genius_result : Option Song) :
    Option String :=
  match genius_result with
  | none => none
  | some song =>
    let chunks := ((fetchPage song.url).filter (fun e => e.isLyricsContainer)).map
      (fun e => e.text)
    if chunks.isEmpty then none
    else some (String.intercalate "\n" chunks)

/-- Embedding of the loop of worker_genius_search on the finite list of
items dequeued from queue_track_details, with the Genius.search_song call
(its HTTP traffic included) abstracted as the fallible parameter search:
an Except.error models a raised requests exception, which happens exactly
when the transport-level retries (Retry with total 5) are exhausted. The
Python loop body contains no try/except, so an exception propagates out of
the loop and the worker process dies; the embedding mirrors that by
returning the error and dropping all remaining items. A dequeued falsy
value (none) ends the loop without being forwarded. -/
def worker_genius_search_run
    (search : SpotifyTrackDetails → Except String (Option Song)) :
    List (Option SpotifyTrackDetails) → Except String (List SearchResult)
  | [] => Except.ok []
  | none :: _ => Except.ok []
  | some td :: rest =>
    match search td with
    | Except.error e => Except.error e
    | Except.ok res =>
      match worker_genius_search_run search rest with
      | Except.error e => Except.error e
      | Except.ok outs => Except.ok (⟨td, res⟩ :: outs)

/-- Items the pull command ever puts on queue_track_details: exactly one
entry per backlog row, wrapped some because each is a real
SpotifyTrackDetails; the command never puts a falsy shutdown sentinel
(there is no other put call on this queue anywhere in the source). -/
def pullTrackQueuePuts (backlog : List SpotifyTrackDetails) :
    List (Option SpotifyTrackDetails) :=
  backlog.map some

/-- Items a worker_genius_lyrics loop puts on queue_lyrics_results for a
list of dequeued search results: one LyricsResult object per input, always
truthy (wrapped some); the extraction outcome is the extract parameter.
No falsy value is ever put on this queue anywhere in the source. -/
def lyricsWorkerPuts (extract : SearchResult → Option String)
    (inputs : List SearchResult) : List (Option LyricsResult) :=
  inputs.map (fun sr => some ⟨sr.track, sr.genius_result, extract sr⟩)

/-- Embedding of the result-drain loop of pull: while res is truthy, keep
consuming. The loop exits only when a falsy value is dequeued; if the
stream of available items is exhausted first, the real Queue.get call
blocks forever, which the embedding records as false (the loop never
exits). -/
def coordinatorDrain : List (Option LyricsResult) → Bool
  | [] => false
  | none :: _ => true
  | some _ :: rest => coordinatorDrain rest

/-- C7: the shutdown protocol of the claim does not exist in the code.
The pull command never enqueues a shutdown sentinel (the track queue
receives exactly the backlog items, all truthy), and the lyrics workers
only ever put truthy LyricsResult objects, so the coordinator's drain
loop, which exits only on a falsy value, never exits: the run never
reaches the join calls, whatever the backlog and whatever the extraction
outcomes. -/
theorem C7_no_shutdown_sentinels (backlog : List SpotifyTrackDetails)
    (extract : SearchResult → Option String) (inputs : List SearchResult) :
    ((pullTrackQueuePuts backlog).filter (fun o => o.isNone)).length = 0 ∧
    coordinatorDrain (lyricsWorkerPuts extract inputs) = false := by
  constructor
  · induction backlog with
    | nil => rfl
    | cons t rest ih =>
      simp only [pullTrackQueuePuts, List.map_cons, List.filter_cons] at ih ⊢
      simp [ih]
  · induction inputs with
    | nil => rfl
    | cons sr rest ih => simpa [lyricsWorkerPuts, coordinatorDrain] using ih

/-- C8 counterexample: a single item whose search call fails after the
transport retries are exhausted crashes the whole worker: the run aborts
with the error instead of dropping the item, and the second queued item is
never processed. -/
theorem C8_counterexample :
    worker_genius_search_run (fun _ => Except.error "max retries exceeded")
        [some ⟨1, "Title", "Artist"⟩, some ⟨2, "Other", "Artist"⟩] =
      Except.error "max retries exceeded" :=
  rfl

/-- C8 (amended): transient HTTP failures are retried at the transport
layer with capped backoff, but exhausting the retries raises an exception
that the worker loop does not catch: the failing item makes the worker
run abort with that error, so a per-item failure does crash the worker
and no later item of that worker is processed. -/
theorem C8_amended (search : SpotifyTrackDetails → Except String (Option Song))
    (td : SpotifyTrackDetails) (rest : List (Option SpotifyTrackDetails))
    (e : String) (he : search td = Except.error e) :
    worker_genius_search_run search (some td :: rest) = Except.error e := by
  unfold worker_genius_search_run
  rw [he]

/-- C8 witness: the amended claim at a concrete failing search. -/
theorem C8_amended_witness :
    worker_genius_search_run (fun _ => Except.error "connection reset")
        [some ⟨7, "T", "A"⟩] =
      Except.error "connection reset" :=
  C8_amended (fun _ => Except.error "connection reset") ⟨7, "T", "A"⟩ [] "connection reset" rfl

/-- C9: extraction contract of get_lyrics. With no candidate, extraction
is skipped (the page fetch is never consulted, so any two fetch functions
agree) and the result is the no-lyrics outcome none. With a candidate, if
the fetched page has no element flagged as a lyrics container the result
is none, and otherwise the result is the text of every flagged element,
in document order, joined by newlines. -/
theorem C9_extraction_contract (fetchA fetchB : String → List PageElement)
    (song : Song) (es : List PageElement)
    (hes : (fetchA song.url).filter (fun e => e.isLyricsContainer) = es) :
    get_lyrics fetchA none = get_lyrics fetchB none ∧
    get_lyrics fetchA none = none ∧
    (es = [] → get_lyrics fetchA (some song) = none) ∧
    (es ≠ [] →
      get_lyrics fetchA (some song) =
        some (String.intercalate "\n" (es.map (fun e => e.text)))) := by
  refine ⟨rfl, rfl, ?_, ?_⟩
  · intro h
    simp [get_lyrics, hes, h]
  · intro h
    simp [get_lyrics, hes, h]

/-- C9 witness: a concrete page with two flagged containers around an
unflagged element yields their text joined in document order; the same
fetch on a no-candidate input yields none. -/
theorem C9_extraction_witness :
    get_lyrics (fun _ => [⟨true, "Verse 1"⟩, ⟨false, "Advert"⟩, ⟨true, "Chorus"⟩]) none =
      get_lyrics (fun _ => []) none ∧
    get_lyrics (fun _ => [⟨true, "Verse 1"⟩, ⟨false, "Advert"⟩, ⟨true, "Chorus"⟩]) none = none ∧
    ([⟨true, "Verse 1"⟩, ⟨true, "Chorus"⟩] = ([] : List PageElement) →
      get_lyrics (fun _ => [⟨true, "Verse 1"⟩, ⟨false, "Advert"⟩, ⟨true, "Chorus"⟩])
        (some ⟨"Song", "complete", none, "u"⟩) = none) ∧
    ([⟨true, "Verse 1"⟩, ⟨true, "Chorus"⟩] ≠ ([] : List PageElement) →
      get_lyrics (fun _ => [⟨true, "Verse 1"⟩, ⟨false, "Advert"⟩, ⟨true, "Chorus"⟩])
        (some ⟨"Song", "complete", none, "u"⟩) =
        some (String.intercalate "\n"
          (([⟨true, "Verse 1"⟩, ⟨true, "Chorus"⟩] : List PageElement).map (fun e => e.text)))) :=
  C9_extraction_contract
    (fun _ => [⟨true, "Verse 1"⟩, ⟨false, "Advert"⟩, ⟨true, "Chorus"⟩])
    (fun _ => []) ⟨"Song", "complete", none, "u"⟩
    [⟨true, "Verse 1"⟩, ⟨true, "Chorus"⟩] rfl

/-! ## Embedding of lyricspider.py: store rows and the pull command -/

/-- Row of the tracks table of migration 1 (the opaque spotify_metadata
blob is never read by the pipeline and is omitted). -/
structure TrackRow where
  id : Nat
  spotify_id : String
  title : String
  artists : String
deriving DecidableEq

/-- Row of the lyrics table of migration 1. -/
structure LyricsRow where
  id : Nat
  track_id : Nat
  genius_url : String
  lyrics : String
deriving DecidableEq

/-- Embedding of the backlog query of pull: the left join of tracks
against lyrics on track id keeping only rows with no lyrics match, which
is the anti-join of tracks against lyrics. The unique index
idx_lyrics_track_id of migration 2 guarantees at most one lyrics row per
track, so the left join never duplicates a track row. -/
def pending_tracks (tracks : List TrackRow) (lyrics : List LyricsRow) : List TrackRow :=
  tracks.filter (fun t => !(lyrics.any (fun l => l.track_id == t.id)))

/-- Projection of a pending track row to the columns the query selects,
as SpotifyTrackDetails is constructed from each row. -/
def pendingDetails (tracks : List TrackRow) (lyrics : List LyricsRow) :
    List SpotifyTrackDetails :=
  (pending_tracks tracks lyrics).map (fun t => ⟨t.id, t.title, t.artists⟩)

/-- Observable events of the pull command, in the order the source
performs them. -/
inductive PullEvent where
  | startWorkers (nSearch nLyrics : Nat)
  | execBacklogQuery
  | enqueueTrack (t : SpotifyTrackDetails)
  | drainResults
deriving DecidableEq

/-- Trace of the pull command as written in the source: it first starts
every search and lyrics worker, only then executes the backlog query, then
iterates the resulting sqlite3 cursor row by row, enqueueing each row as
it is read (the cursor is live, never materialized by a fetchall), and
finally enters the result drain loop. -/
def pullTrace (nSearch nLyrics : Nat) (backlog : List SpotifyTrackDetails) :
    List PullEvent :=
  PullEvent.startWorkers nSearch nLyrics :: PullEvent.execBacklogQuery ::
    (backlog.map PullEvent.enqueueTrack ++ [PullEvent.drainResults])

/-- C10 counterexample: with the default four workers per stage and a
one-track backlog, the very first event of pull is starting the workers;
the backlog query is only executed afterwards, and the rows are enqueued
from the live cursor later still, so the backlog is not materialized
before any pipeline worker begins. -/
theorem C10_counterexample :
    pullTrace 4 4 [⟨1, "Song", "Artist"⟩] =
      [PullEvent.startWorkers 4 4, PullEvent.execBacklogQuery,
        PullEvent.enqueueTrack ⟨1, "Song", "Artist"⟩, PullEvent.drainResults] ∧
    (pullTrace 4 4 [⟨1, "Song", "Artist"⟩]).head? = some (PullEvent.startWorkers 4 4) ∧
    (pullTrace 4 4 [⟨1, "Song", "Artist"⟩]).head? ≠ some PullEvent.execBacklogQuery :=
  ⟨rfl, rfl, by decide⟩

/-- C10 (amended): the backlog query is the exact anti-join, with no side
effects: a track is pending precisely when it is in the catalog and no
lyrics row references it. But the query runs only after every worker has
been started, and its cursor is consumed while the workers run: in every
pull trace the first event is starting the workers, the query execution is
second, and the enqueues from the live cursor follow. -/
theorem C10_amended (tracks : List TrackRow) (lyrics : List LyricsRow) (t : TrackRow)
    (nS nL : Nat) (backlog : List SpotifyTrackDetails) :
    (t ∈ pending_tracks tracks lyrics ↔
      t ∈ tracks ∧ ∀ l ∈ lyrics, l.track_id ≠ t.id) ∧
    (pullTrace nS nL backlog).head? = some (PullEvent.startWorkers nS nL) ∧
    (pullTrace nS nL backlog).drop 1 =
      PullEvent.execBacklogQuery ::
        (backlog.map PullEvent.enqueueTrack ++ [PullEvent.drainResults]) := by
  refine ⟨?_, rfl, rfl⟩
  simp only [pending_tracks, List.mem_filter, Bool.not_eq_true', List.any_eq_false,
    beq_iff_eq]

/-! ## Embedding of the lyrics store: migrations 1 to 3 of DB.MIGRATIONS

The lyrics table (id INTEGER PRIMARY KEY AUTOINCREMENT, track_id with a
unique index from migration 2, genius_url, lyrics) and its FTS shadow
table lyrics_idx (entries of rowid and content, kept in lockstep by the
three triggers of migration 3) become one state type; each SQL write
statement becomes one transition. -/

/-- State of the lyrics table and its full-text shadow index. An index
entry is the pair of its rowid and its stored lyrics content; nextId is
the next AUTOINCREMENT value of the primary key. -/
structure LyricsDB where
  rows : List LyricsRow
  idx : List (Nat × String)
  nextId : Nat
deriving DecidableEq

/-- SQLite errors the embedding distinguishes. -/
inductive SqlError where
  | uniqueConstraint
deriving DecidableEq

/-- The shadow entry a lyrics row should have, per the insert trigger of
migration 3: rowid new.id with content new.lyrics. -/
def lyricsEntry (r : LyricsRow) : Nat × String := (r.id, r.lyrics)

/-- Embedding of the INSERT INTO lyrics statement of the pull command
under the schema of migrations 1 to 3: the unique index
idx_lyrics_track_id rejects a second row for the same track_id (the whole
statement fails and nothing changes, which the surrounding Python raises
as an IntegrityError); otherwise the row is appended with the next
AUTOINCREMENT id and the AFTER INSERT trigger appends the matching shadow
entry in the same unit of work. -/
def insertLyrics (db : LyricsDB) (tid : Nat) (url lyr : String) :
    Except SqlError LyricsDB :=
  if db.rows.any (fun r => r.track_id == tid) then
    Except.error SqlError.uniqueConstraint
  else
    Except.ok ⟨db.rows ++ [⟨db.nextId, tid, url, lyr⟩],
      db.idx ++ [(db.nextId, lyr)], db.nextId + 1⟩

/-- Embedding of DELETE FROM lyrics WHERE id is the given key: the row is
removed, and the AFTER DELETE trigger (which fires once per deleted row,
so only when the key was present) removes the shadow entry with that
rowid. -/
def deleteLyrics (db : LyricsDB) (k : Nat) : LyricsDB :=
  ⟨db.rows.filter (fun r => !(r.id == k)),
    if db.rows.any (fun r => r.id == k) then
      db.idx.filter (fun e => !(e.1 == k))
    else db.idx,
    db.nextId⟩

/-- Embedding of UPDATE lyrics SET lyrics to the new text WHERE id is the
given key: the matched row (at most one, since id is the primary key) gets
the new text, and the AFTER UPDATE trigger removes the old shadow entry
for that rowid and inserts the new one. -/
def updateLyrics (db : LyricsDB) (k : Nat) (newLyr : String) : LyricsDB :=
  ⟨db.rows.map (fun r => if r.id == k then { r with lyrics := newLyr } else r),
    if db.rows.any (fun r => r.id == k) then
      db.idx.filter (fun e => !(e.1 == k)) ++ [(k, newLyr)]
    else db.idx,
    db.nextId⟩

/-- A write statement against the lyrics table. -/
inductive LyricsOp where
  | ins (tid : Nat) (url lyr : String)
  | del (k : Nat)
  | upd (k : Nat) (newLyr : String)
deriving DecidableEq

/-- Apply one write statement; a failed insert (unique-constraint
conflict) leaves the state unchanged. -/
def applyOp (db : LyricsDB) : LyricsOp → LyricsDB
  | LyricsOp.ins tid url lyr =>
    match insertLyrics db tid url lyr with
    | Except.ok db' => db'
    | Except.error _ => db
  | LyricsOp.del k => deleteLyrics db k
  | LyricsOp.upd k l => updateLyrics db k l

/-- The freshly migrated store: both tables empty, AUTOINCREMENT at 1. -/
def emptyLyricsDB : LyricsDB := ⟨[], [], 1⟩

/-- Apply a sequence of write statements to the fresh store. -/
def applyOps (ops : List LyricsOp) : LyricsDB :=
  ops.foldl applyOp emptyLyricsDB

/-- Lookup of a lyrics row by rowid, as the left join of the search
command resolves lyrics_idx.rowid against lyrics.id. -/
def findRow (rows : List LyricsRow) (i : Nat) : Option LyricsRow :=
  rows.find? (fun r => r.id == i)

/-- Embedding of the query of the search command: keep the shadow entries
whose stored content matches the query (the MATCH semantics of the
external FTS engine is the parameter matchP, a function of the stored
content), and join each back to its lyrics row by rowid. -/
def queryResults (db : LyricsDB) (matchP : String → Bool) : List LyricsRow :=
  (db.idx.filter (fun e => matchP e.2)).filterMap (fun e => findRow db.rows e.1)

/-- Executable substring test, used to instantiate the match semantics
with an exact-substring query. -/
def strContains (hay needle : String) : Bool :=
  strContainsAux needle.data hay.data
where
  strContainsAux (n : List Char) : List Char → Bool
    | [] => n.isPrefixOf []
    | c :: cs => n.isPrefixOf (c :: cs) || strContainsAux n cs

/-- Consistency invariant between the lyrics table and its shadow index:
row ids are unique (the primary key), below the AUTOINCREMENT counter,
and for every rowid the shadow entries with that rowid are exactly the
shadow entries of the rows with that id. -/
def IdxInv (db : LyricsDB) : Prop :=
  (db.rows.map (fun r => r.id)).Nodup ∧
  (∀ r ∈ db.rows, r.id < db.nextId) ∧
  ∀ k, db.idx.filter (fun e => e.1 == k) =
    (db.rows.filter (fun r => r.id == k)).map lyricsEntry

/-! ## Consistency of the shadow index -/

/-- Rows whose id is at least the AUTOINCREMENT counter do not exist. -/
lemma filter_key_nil_of_lt (rows : List LyricsRow) (n : Nat)
    (h : ∀ r ∈ rows, r.id < n) :
    rows.filter (fun r => r.id == n) = [] := by
  rw [List.filter_eq_nil_iff]
  intro r hr
  simp only [beq_iff_eq]
  exact Nat.ne_of_lt (h r hr)

/-- With unique ids, filtering the rows by the id of a present row keeps
exactly that row. -/
lemma filter_id_singleton (rows : List LyricsRow) (r : LyricsRow)
    (hnd : (rows.map (fun x => x.id)).Nodup) (hr : r ∈ rows) :
    rows.filter (fun x => x.id == r.id) = [r] := by
  induction rows with
  | nil => cases hr
  | cons a l ih =>
    simp only [List.map_cons, List.nodup_cons] at hnd
    obtain ⟨hna, hnl⟩ := hnd
    rcases List.mem_cons.mp hr with rfl | hrl
    · simp only [List.filter_cons, beq_self_eq_true, if_pos]
      have h0 : l.filter (fun x => x.id == r.id) = [] := by
        rw [List.filter_eq_nil_iff]
        intro x hx hbeq
        exact hna (beq_iff_eq.mp hbeq ▸ List.mem_map_of_mem (fun x => x.id) hx)
      rw [h0]
    · have hne : (a.id == r.id) = false := by
        apply beq_eq_false_iff_ne.mpr
        intro he
        exact hna (he ▸ List.mem_map_of_mem (fun x => x.id) hrl)
      simp only [List.filter_cons, hne, Bool.false_eq_true, if_false]
      exact ih hnl hrl

/-- With unique ids, looking a present row up by its id finds it. -/
lemma findRow_of_nodup (rows : List LyricsRow) (r : LyricsRow)
    (hnd : (rows.map (fun x => x.id)).Nodup) (hr : r ∈ rows) :
    findRow rows r.id = some r := by
  induction rows with
  | nil => cases hr
  | cons a l ih =>
    simp only [List.map_cons, List.nodup_cons] at hnd
    obtain ⟨hna, hnl⟩ := hnd
    rcases List.mem_cons.mp hr with rfl | hrl
    · unfold findRow
      exact List.find?_cons_of_pos _ (beq_self_eq_true _)
    · have hne : (a.id == r.id) = false := by
        apply beq_eq_false_iff_ne.mpr
        intro he
        exact hna (he ▸ List.mem_map_of_mem (fun x => x.id) hrl)
      unfold findRow at ih ⊢
      rw [List.find?_cons_of_neg _ (by simp [hne])]
      exact ih hnl hrl

/-- The fresh store satisfies the consistency invariant. -/
lemma idxInv_empty : IdxInv emptyLyricsDB := by
  refine ⟨List.nodup_nil, ?_, ?_⟩
  · intro r hr
    cases hr
  · intro k
    rfl

/-- A successful insert preserves the consistency invariant: the appended
row and the appended shadow entry agree. -/
lemma idxInv_insertLyrics (db : LyricsDB) (tid : Nat) (url lyr : String)
    (db' : LyricsDB) (hInv : IdxInv db)
    (h : insertLyrics db tid url lyr = Except.ok db') : IdxInv db' := by
  obtain ⟨hnd, hlt, hfil⟩ := hInv
  unfold insertLyrics at h
  by_cases hc : db.rows.any (fun r => r.track_id == tid)
  · rw [if_pos hc] at h
    exact Except.noConfusion h
  · rw [if_neg hc] at h
    injection h with h
    subst h
    refine ⟨?_, ?_, ?_⟩
    · rw [List.map_append, List.nodup_append]
      refine ⟨hnd, List.nodup_singleton _, ?_⟩
      intro a ha hb
      obtain ⟨r, hr, rfl⟩ := List.mem_map.mp ha
      simp only [List.map_cons, List.map_nil, List.mem_singleton] at hb
      exact absurd hb (Nat.ne_of_lt (hlt r hr))
    · intro r hr
      rcases List.mem_append.mp hr with h1 | h2
      · exact Nat.lt_succ_of_lt (hlt r h1)
      · simp only [List.mem_singleton] at h2
        subst h2
        exact Nat.lt_succ_self _
    · intro k
      dsimp only
      rw [List.filter_append, List.filter_append, List.map_append, hfil k]
      congr 1
      by_cases hk : (db.nextId == k) = true
      · simp [List.filter_cons, hk, lyricsEntry]
      · simp only [Bool.not_eq_true] at hk
        simp [List.filter_cons, hk]

/-- A delete preserves the consistency invariant: the delete trigger
removes exactly the shadow entry of the removed row. -/
lemma idxInv_deleteLyrics (db : LyricsDB) (k : Nat) (hInv : IdxInv db) :
    IdxInv (deleteLyrics db k) := by
  obtain ⟨hnd, hlt, hfil⟩ := hInv
  refine ⟨?_, ?_, ?_⟩
  · have hcomm : (db.rows.filter (fun r => !(r.id == k))).map (fun r => r.id) =
        (db.rows.map (fun r => r.id)).filter (fun i => !(i == k)) := by
      rw [List.filter_map]
      rfl
    dsimp only [deleteLyrics]
    rw [hcomm]
    exact hnd.filter _
  · intro r hr
    dsimp only [deleteLyrics] at hr
    exact hlt r (List.mem_of_mem_filter hr)
  · intro j
    dsimp only [deleteLyrics]
    by_cases hany : (db.rows.any (fun r => r.id == k)) = true
    · rw [if_pos hany, List.filter_filter, List.filter_filter]
      by_cases hj : j = k
      · subst hj
        have hL : db.idx.filter (fun e => e.1 == j && !(e.1 == j)) = [] := by
          rw [List.filter_eq_nil_iff]
          intro e he
          simp
        have hR : db.rows.filter (fun r => r.id == j && !(r.id == j)) = [] := by
          rw [List.filter_eq_nil_iff]
          intro r hr
          simp
        rw [hL, hR]
        rfl
      · have hL : db.idx.filter (fun e => e.1 == j && !(e.1 == k)) =
            db.idx.filter (fun e => e.1 == j) := by
          apply List.filter_congr
          intro e he
          cases heq : e.1 == j with
          | true =>
            have : (e.1 == k) = false :=
              beq_eq_false_iff_ne.mpr (beq_iff_eq.mp heq ▸ hj)
            simp [this]
          | false => simp
        have hR : db.rows.filter (fun r => r.id == j && !(r.id == k)) =
            db.rows.filter (fun r => r.id == j) := by
          apply List.filter_congr
          intro r hr
          cases heq : r.id == j with
          | true =>
            have : (r.id == k) = false :=
              beq_eq_false_iff_ne.mpr (beq_iff_eq.mp heq ▸ hj)
            simp [this]
          | false => simp
        rw [hL, hR, hfil j]
    · rw [if_neg hany]
      have hrows : db.rows.filter (fun r => !(r.id == k)) = db.rows := by
        rw [List.filter_eq_self]
        intro r hr
        have hany' : db.rows.any (fun r => r.id == k) = false := by
          simpa using hany
        have := List.any_eq_false.mp hany' r hr
        simpa using this
      rw [hrows]
      exact hfil j

/-- An update preserves the consistency invariant: the update trigger
replaces exactly the shadow entry of the updated row. -/
lemma idxInv_updateLyrics (db : LyricsDB) (k : Nat) (newLyr : String)
    (hInv : IdxInv db) : IdxInv (updateLyrics db k newLyr) := by
  obtain ⟨hnd, hlt, hfil⟩ := hInv
  have uId : ∀ r : LyricsRow,
      (if r.id == k then { r with lyrics := newLyr } else r).id = r.id := by
    intro r
    by_cases h : (r.id == k) = true <;> simp [h]
  refine ⟨?_, ?_, ?_⟩
  · have hids : (db.rows.map
        (fun r => if r.id == k then { r with lyrics := newLyr } else r)).map
          (fun r => r.id) = db.rows.map (fun r => r.id) := by
      rw [List.map_map]
      exact List.map_congr_left (fun r _ => uId r)
    dsimp only [updateLyrics]
    rw [hids]
    exact hnd
  · intro r hr
    dsimp only [updateLyrics] at hr
    obtain ⟨r0, hr0, rfl⟩ := List.mem_map.mp hr
    rw [uId r0]
    exact hlt r0 hr0
  · intro j
    dsimp only [updateLyrics]
    have hmapfil : (db.rows.map
        (fun r => if r.id == k then { r with lyrics := newLyr } else r)).filter
          (fun r => r.id == j) =
        (db.rows.filter (fun r => r.id == j)).map
          (fun r => if r.id == k then { r with lyrics := newLyr } else r) := by
      rw [List.filter_map]
      congr 1
      apply List.filter_congr
      intro r _
      simp only [Function.comp_apply]
      rw [uId r]
    by_cases hany : (db.rows.any (fun r => r.id == k)) = true
    · rw [if_pos hany, List.filter_append, hmapfil]
      by_cases hj : j = k
      · subst hj
        rw [List.filter_filter]
        have hL : db.idx.filter (fun e => e.1 == j && !(e.1 == j)) = [] := by
          rw [List.filter_eq_nil_iff]
          intro e he
          simp
        obtain ⟨r0, hr0, hr0k⟩ := List.any_eq_true.mp hany
        have hr0j : r0.id = j := beq_iff_eq.mp hr0k
        have h1 : db.rows.filter (fun r => r.id == j) = [r0] :=
          hr0j ▸ filter_id_singleton db.rows r0 hnd hr0
        rw [hL, h1]
        simp [lyricsEntry, hr0k, hr0j]
      · rw [List.filter_filter]
        have hL : db.idx.filter (fun e => e.1 == j && !(e.1 == k)) =
            db.idx.filter (fun e => e.1 == j) := by
          apply List.filter_congr
          intro e he
          cases heq : e.1 == j with
          | true =>
            have : (e.1 == k) = false :=
              beq_eq_false_iff_ne.mpr (beq_iff_eq.mp heq ▸ hj)
            simp [this]
          | false => simp
        have hsing : [(k, newLyr)].filter (fun e => e.1 == j) = [] := by
          simp [beq_eq_false_iff_ne.mpr (Ne.symm hj)]
        rw [hL, hsing, List.append_nil, hfil j, List.map_map]
        apply List.map_congr_left
        intro r hr
        have hrj : (r.id == j) = true := (List.mem_filter.mp hr).2
        have hrk : (r.id == k) = false := by
          apply beq_eq_false_iff_ne.mpr
          intro he
          exact hj ((beq_iff_eq.mp hrj) ▸ he)
        simp only [Function.comp_apply, hrk, Bool.false_eq_true, if_false]
    · rw [if_neg hany]
      have hany' : db.rows.any (fun r => r.id == k) = false := by
        simpa using hany
      have hrows : db.rows.map
          (fun r => if r.id == k then { r with lyrics := newLyr } else r) =
          db.rows := by
        have hpt : ∀ r ∈ db.rows,
            (if r.id == k then { r with lyrics := newLyr } else r) = r := by
          intro r hr
          have hfalse := List.any_eq_false.mp hany' r hr
          simp only [Bool.not_eq_true] at hfalse
          simp [hfalse]
        rw [List.map_congr_left hpt, List.map_id']
      rw [hrows]
      exact hfil j

/-- Every write statement preserves the consistency invariant. -/
lemma idxInv_applyOp (db : LyricsDB) (op : LyricsOp) (h : IdxInv db) :
    IdxInv (applyOp db op) := by
  cases op with
  | ins tid url lyr =>
    cases hins : insertLyrics db tid url lyr with
    | ok db' =>
      simp only [applyOp, hins]
      exact idxInv_insertLyrics db tid url lyr db' h hins
    | error e =>
      simp only [applyOp, hins]
      exact h
  | del k => exact idxInv_deleteLyrics db k h
  | upd k newLyr => exact idxInv_updateLyrics db k newLyr h

/-- Folding write statements from an invariant-satisfying state keeps the
invariant. -/
lemma idxInv_foldl (ops : List LyricsOp) :
    ∀ db : LyricsDB, IdxInv db → IdxInv (ops.foldl applyOp db) := by
  induction ops with
  | nil => intro db h; exact h
  | cons op rest ih =>
    intro db h
    exact ih (applyOp db op) (idxInv_applyOp db op h)

/-- Any sequence of write statements against the fresh store yields a
consistent state. -/
lemma idxInv_applyOps (ops : List LyricsOp) : IdxInv (applyOps ops) :=
  idxInv_foldl ops emptyLyricsDB idxInv_empty

/-- In a consistent state, the shadow entries keyed by the rowid of a live
row are exactly one entry carrying its lyrics content. -/
lemma idx_entry_filter (db : LyricsDB) (hInv : IdxInv db) (r : LyricsRow)
    (hr : r ∈ db.rows) :
    db.idx.filter (fun e => e.1 == r.id) = [(r.id, r.lyrics)] := by
  obtain ⟨hnd, _, hfil⟩ := hInv
  rw [hfil r.id, filter_id_singleton db.rows r hnd hr]
  rfl

/-- In a consistent state, a query whose match predicate accepts the
content of a live row returns that row. -/
lemma mem_queryResults (db : LyricsDB) (hInv : IdxInv db) (r : LyricsRow)
    (hr : r ∈ db.rows) (matchP : String → Bool) (hm : matchP r.lyrics = true) :
    r ∈ queryResults db matchP := by
  have hnd := hInv.1
  have hmem : (r.id, r.lyrics) ∈ db.idx := by
    have h1 := idx_entry_filter db hInv r hr
    have h2 : (r.id, r.lyrics) ∈ db.idx.filter (fun e => e.1 == r.id) := by
      rw [h1]
      exact List.mem_singleton.mpr rfl
    exact List.mem_of_mem_filter h2
  unfold queryResults
  apply List.mem_filterMap.mpr
  refine ⟨(r.id, r.lyrics), ?_, ?_⟩
  · exact List.mem_filter.mpr ⟨hmem, hm⟩
  · exact findRow_of_nodup db.rows r hnd hr

/-- C2: index-table consistency. After any sequence of inserts, updates
and deletes on the fresh store, every live lyrics row has exactly one
shadow index entry, keyed by its rowid and carrying its exact lyrics
content; a full-text query whose match semantics accepts that content
(for instance an exact-substring query) returns the row; and after
deleting the row its stale shadow entry is gone, so the same query, when
the row was the only match, returns nothing. -/
theorem C2_index_consistency (ops : List LyricsOp) (matchP : String → Bool)
    (r : LyricsRow) (hr : r ∈ (applyOps ops).rows) :
    (applyOps ops).idx.filter (fun e => e.1 == r.id) = [(r.id, r.lyrics)] ∧
    (matchP r.lyrics = true → r ∈ queryResults (applyOps ops) matchP) ∧
    (∀ e ∈ (deleteLyrics (applyOps ops) r.id).idx, e.1 ≠ r.id) ∧
    ((∀ r' ∈ (applyOps ops).rows, matchP r'.lyrics = true → r' = r) →
      queryResults (deleteLyrics (applyOps ops) r.id) matchP = []) := by
  have hInv := idxInv_applyOps ops
  refine ⟨idx_entry_filter _ hInv r hr,
    fun hm => mem_queryResults _ hInv r hr matchP hm, ?_, ?_⟩
  · intro e he
    dsimp only [deleteLyrics] at he
    have hany : ((applyOps ops).rows.any (fun x => x.id == r.id)) = true :=
      List.any_eq_true.mpr ⟨r, hr, beq_self_eq_true _⟩
    rw [if_pos hany] at he
    have hne := (List.mem_filter.mp he).2
    simpa using hne
  · intro honly
    have hInv' := idxInv_deleteLyrics (applyOps ops) r.id hInv
    obtain ⟨hnd', hlt', hfil'⟩ := hInv'
    unfold queryResults
    have hfe : (deleteLyrics (applyOps ops) r.id).idx.filter (fun e => matchP e.2) =
        [] := by
      rw [List.filter_eq_nil_iff]
      intro e he hmP
      have hself : e ∈ (deleteLyrics (applyOps ops) r.id).idx.filter
          (fun x => x.1 == e.1) :=
        List.mem_filter.mpr ⟨he, beq_self_eq_true _⟩
      rw [hfil' e.1] at hself
      obtain ⟨r', hr', hre⟩ := List.mem_map.mp hself
      have hr'rows' : r' ∈ (deleteLyrics (applyOps ops) r.id).rows :=
        List.mem_of_mem_filter hr'
      dsimp only [deleteLyrics] at hr'rows'
      have hr'rows : r' ∈ (applyOps ops).rows := List.mem_of_mem_filter hr'rows'
      have hr'ne := (List.mem_filter.mp hr'rows').2
      have hl : r'.lyrics = e.2 := congrArg Prod.snd hre
      have heq : r' = r := honly r' hr'rows (by rw [hl]; exact hmP)
      rw [heq] at hr'ne
      simp at hr'ne
    rw [hfe]
    rfl

/-- C2 witness: one insert into the fresh store; the shadow index holds
exactly the one matching entry, an exact-substring query returns the row,
and after deleting the row the entry is gone and the query is empty. -/
theorem C2_index_consistency_witness :
    (applyOps [LyricsOp.ins 1 "url" "hello world"]).idx.filter (fun e => e.1 == 1) =
      [(1, "hello world")] ∧
    (⟨1, 1, "url", "hello world"⟩ : LyricsRow) ∈
      queryResults (applyOps [LyricsOp.ins 1 "url" "hello world"])
        (fun s => strContains s "hello") ∧
    (∀ e ∈ (deleteLyrics (applyOps [LyricsOp.ins 1 "url" "hello world"]) 1).idx,
      e.1 ≠ 1) ∧
    queryResults (deleteLyrics (applyOps [LyricsOp.ins 1 "url" "hello world"]) 1)
      (fun s => strContains s "hello") = [] := by
  obtain ⟨h1, h2, h3, h4⟩ :=
    C2_index_consistency [LyricsOp.ins 1 "url" "hello world"]
      (fun s => strContains s "hello") ⟨1, 1, "url", "hello world"⟩ (by decide)
  exact ⟨h1, h2 (by decide), h3, h4 (by decide)⟩

/-- C1 counterexample: after recording lyrics for track 7, a second
attempt for the same track id is not a successful no-op: the INSERT has no
conflict clause, so the unique index on track_id rejects it with a
constraint error (raised to Python as an IntegrityError). -/
theorem C1_counterexample :
    insertLyrics (applyOps [LyricsOp.ins 7 "url1" "la la"]) 7 "url2" "la la" =
      Except.error SqlError.uniqueConstraint :=
  rfl

/-- C1 (amended): once a LyricsRecord exists for a track id, a second
insert for the same track id fails with a unique-constraint error rather
than returning a not-inserted success; the failed statement changes
nothing, so exactly one LyricsRecord for that track remains and no
duplicate row is ever created. -/
theorem C1_second_insert_errors (db : LyricsDB) (tid : Nat)
    (u1 l1 u2 l2 : String) (db' : LyricsDB)
    (h : insertLyrics db tid u1 l1 = Except.ok db') :
    insertLyrics db' tid u2 l2 = Except.error SqlError.uniqueConstraint ∧
    (db'.rows.filter (fun r => r.track_id == tid)).length = 1 ∧
    applyOp db' (LyricsOp.ins tid u2 l2) = db' := by
  unfold insertLyrics at h
  by_cases hc : (db.rows.any (fun r => r.track_id == tid)) = true
  · rw [if_pos hc] at h
    exact Except.noConfusion h
  · rw [if_neg hc] at h
    injection h with h
    subst h
    have hany : ((db.rows ++ [(⟨db.nextId, tid, u1, l1⟩ : LyricsRow)]).any
        (fun r => r.track_id == tid)) = true :=
      List.any_eq_true.mpr ⟨(⟨db.nextId, tid, u1, l1⟩ : LyricsRow),
        List.mem_append_right _ (List.mem_singleton.mpr rfl), beq_self_eq_true _⟩
    have herr : insertLyrics (⟨db.rows ++ [⟨db.nextId, tid, u1, l1⟩],
        db.idx ++ [(db.nextId, l1)], db.nextId + 1⟩ : LyricsDB) tid u2 l2 =
        Except.error SqlError.uniqueConstraint := by
      unfold insertLyrics
      dsimp only
      rw [if_pos hany]
    refine ⟨herr, ?_, ?_⟩
    · dsimp only
      rw [List.filter_append]
      have h0 : db.rows.filter (fun r => r.track_id == tid) = [] := by
        rw [List.filter_eq_nil_iff]
        intro r hr
        have hc' : db.rows.any (fun r => r.track_id == tid) = false := by
          simpa using hc
        exact List.any_eq_false.mp hc' r hr
      rw [h0]
      simp
    · simp only [applyOp, herr]

/-- C1 witness: the amended claim after one insert into the fresh store. -/
theorem C1_second_insert_witness :
    insertLyrics (⟨[⟨1, 7, "u1", "l1"⟩], [(1, "l1")], 2⟩ : LyricsDB) 7 "u2" "l2" =
      Except.error SqlError.uniqueConstraint ∧
    ((⟨[⟨1, 7, "u1", "l1"⟩], [(1, "l1")], 2⟩ : LyricsDB).rows.filter
      (fun r => r.track_id == 7)).length = 1 ∧
    applyOp (⟨[⟨1, 7, "u1", "l1"⟩], [(1, "l1")], 2⟩ : LyricsDB)
        (LyricsOp.ins 7 "u2" "l2") =
      (⟨[⟨1, 7, "u1", "l1"⟩], [(1, "l1")], 2⟩ : LyricsDB) :=
  C1_second_insert_errors emptyLyricsDB 7 "u1" "l1" "u2" "l2"
    ⟨[⟨1, 7, "u1", "l1"⟩], [(1, "l1")], 2⟩ rfl
